import Mathlib

/-!
Shallow embedding of the `state_machine` FSM engine (src/fsm.h).

State identities and event identities are `String`s (the code uses
`typeid(T).name()`).  Type-erased payloads (`std::any`) are modelled as a
`Payload` carrying the dynamic type name and a value.  Instances owned by a
slot (`T* ta`) are modelled as `Option Nat`, where the `Nat` is a fresh
allocation id drawn from a counter, so "same reference" is expressible.
Calls into application code (constructors, destructors, `on_fsm_event`) are
recorded in an event log; the engine itself is sequential state passing.
-/

namespace state_machine

/-- Side effects observable by the application: a slot constructed its
instance (`enterEv`, with the allocation id), a slot ran `leave`, the engine
invoked `onevt` (dispatch-event) on a slot, and the instance's
`on_fsm_event` handler was called. -/
inductive Ev where
  | enterEv (name : String) (inst : Nat)
  | leaveEv (name : String)
  | dispatchEv (name : String)
  | handlerEv (name : String)
deriving DecidableEq, Repr

/-- Model of a `std::any` payload: its dynamic type name and its value. -/
structure Payload where
  tyName : String
  val : Nat
deriving DecidableEq, Repr

/-- Association-list lookup, modelling `std::map::count` / `operator[]`
reads keyed by strings. -/
def lookupA {α : Type} (l : List (String × α)) (k : String) : Option α :=
  match l with
  | [] => none
  | (k', v) :: rest => if k' = k then some v else lookupA rest k

/-- Removal of a key, modelling `std::map::erase`. -/
def eraseA {α : Type} (l : List (String × α)) (k : String) : List (String × α) :=
  match l with
  | [] => []
  | (k', v) :: rest => if k' = k then eraseA rest k else (k', v) :: eraseA rest k

/-- Keyed insertion/overwrite, modelling `map[k] = v`. -/
def insertA {α : Type} (l : List (String × α)) (k : String) (v : α) : List (String × α) :=
  (k, v) :: eraseA l k

/-- One state slot: the data members of `State` / `StateImpl<T>`.
`ta` is the owned instance (allocation id or null), `hasHandler` records
whether the application type `T` exposes `on_fsm_event`. -/
structure Slot where
  reuse : Bool := false
  name : String := ""
  nextstate : String := ""
  whitelist : List String := []
  blacklist : List String := []
  deferlist : List String := []
  evts : List (String × Payload) := []
  hasHandler : Bool := false
  ta : Option Nat := none
  param : List Nat := []
deriving DecidableEq, Repr

/-- Interruption verdicts, reading the integer codes of `State::interrupt`:
0 = Reject, -1 = Defer, 1 = Accept. -/
inductive Verdict where
  | Accept
  | Reject
  | Defer
deriving DecidableEq, Repr

/-- Translation of `State::interrupt` (src/fsm.h lines 60-68). -/
def Slot.interrupt (s : Slot) (evtname : String) : Int :=
  if s.whitelist ≠ [] ∧ evtname ∉ s.whitelist then 0
  else if evtname ∈ s.blacklist then 0
  else if evtname ∈ s.deferlist then -1
  else 1

/-- Reading of the integer codes returned by `State::interrupt` as verdicts,
following their use in `FSM::post_event`: 0 drops the event, -1 defers it,
anything else accepts. -/
def verdictOfCode (code : Int) : Verdict :=
  if code = 0 then Verdict.Reject
  else if code = -1 then Verdict.Defer
  else Verdict.Accept

/-- Written from the spec's words (§4.3), for comparison with
`Slot.interrupt`: the four-step precedence whitelist → blacklist →
deferlist → accept. -/
def decideSpec (whitelist blacklist deferlist : List String) (e : String) : Verdict :=
  if whitelist ≠ [] ∧ e ∉ whitelist then Verdict.Reject
  else if e ∈ blacklist then Verdict.Reject
  else if e ∈ deferlist then Verdict.Defer
  else Verdict.Accept

/-- Translation of `State::add_event` (lines 69-73): `evts[typeid(E).name()]
= std::any(evt)`; the key is the payload's own dynamic type name. -/
def Slot.add_event (s : Slot) (p : Payload) : Slot :=
  { s with evts := insertA s.evts p.tyName p }

/-- Translation of `State::get_event<T>` (lines 40-53).  Returns the value
and the updated slot.  A missing key returns `none`; a stored payload whose
dynamic type differs from the requested key makes `std::any_cast` throw, so
the function returns `none` before reaching the `erase`, leaving the entry
in place. -/
def Slot.get_event (s : Slot) (tyName : String) : Option Nat × Slot :=
  match lookupA s.evts tyName with
  | none => (none, s)
  | some p =>
      if p.tyName = tyName then
        (some p.val, { s with evts := eraseA s.evts tyName })
      else
        (none, s)

/-- Translation of `StateImpl::leave` (lines 120-127): clear all buffered
payloads; unless `reuse` is set, destroy (null) the owned instance.  The
log records that `leave` ran. -/
def Slot.leaveOp (s : Slot) : Slot × List Ev :=
  let s1 : Slot := { s with evts := [] }
  if s.reuse then (s1, [Ev.leaveEv s.name])
  else ({ s1 with ta := none }, [Ev.leaveEv s.name])

/-- Translation of `StateImpl::onevt` (lines 98-106): with no instance it
returns immediately; with an instance it calls `on_fsm_event` when the type
has one, and otherwise clears the buffered payloads.  The log records the
dispatch call and, when run, the handler call. -/
def Slot.onevtOp (s : Slot) : Slot × List Ev :=
  if s.ta = none then (s, [Ev.dispatchEv s.name])
  else if s.hasHandler then (s, [Ev.dispatchEv s.name, Ev.handlerEv s.name])
  else ({ s with evts := [] }, [Ev.dispatchEv s.name])

/-- Translation of `StateImpl::enter` (lines 107-119): if an instance exists
and `reuse` is false, `leave` first; if there is no instance or `reuse` is
false, construct a new instance (a fresh allocation id); finally, if
payloads are buffered, run `onevt`. -/
def Slot.enterOp (s : Slot) (freshId : Nat) : Slot × List Ev :=
  let r1 : Slot × List Ev :=
    if s.ta ≠ none ∧ s.reuse = false then Slot.leaveOp s else (s, [])
  let s1 := r1.1
  let r2 : Slot × List Ev :=
    if s1.ta = none ∨ s1.reuse = false then
      ({ s1 with ta := some freshId }, [Ev.enterEv s1.name freshId])
    else (s1, [])
  let s2 := r2.1
  let r3 : Slot × List Ev :=
    if s2.evts ≠ [] then Slot.onevtOp s2 else (s2, [])
  (r3.1, r1.2 ++ r2.2 ++ r3.2)

/-- Translation of `StateImpl::set_params` (lines 139-143): stores the
parameters only when the count matches the machine's fixed arity. -/
def Slot.set_params (s : Slot) (arity : Nat) (params : List Nat) : Slot :=
  if params.length ≠ arity then s else { s with param := params }

/-- The data members of `FSM` (lines 146-154).  `curstate` is the active
state identity (the `State*` pointers are in bijection with the registered
names), `waitstates` the deferred-target queue, `events` the
event-identity → state-identity routing table, `states` the slot registry.
`nextId` supplies fresh allocation ids and `log` records application-visible
side effects. -/
structure FSMState where
  arity : Nat := 0
  eof : Bool := false
  curstate : Option String := none
  waitstates : List String := []
  events : List (String × String) := []
  states : List (String × Slot) := []
  nextId : Nat := 0
  log : List Ev := []
deriving DecidableEq, Repr

/-- Apply a logging slot operation through the registry; a missing name is
a no-op (a call through a pointer can only reach registered slots). -/
def updSlot (f : FSMState) (name : String) (g : Slot → Slot × List Ev) : FSMState :=
  match lookupA f.states name with
  | none => f
  | some s =>
      let r := g s
      { f with states := insertA f.states name r.1, log := f.log ++ r.2 }

/-- Translation of `FSM::_enter_state` (lines 179-200).  A null `oldstate`
argument (from `enter_state`) is resolved to the current state; the active
pointer is set to the registry entry for `name`, or null when `name` is not
registered; if old and new coincide nothing further happens, otherwise the
old state leaves, parameters are stored, and the new state enters. -/
def _enter_state (f : FSMState) (name : String) (paramlist : List Nat)
    (oldstateArg : Option String) : FSMState :=
  let oldstate : Option String :=
    match oldstateArg with
    | some o => some o
    | none => f.curstate
  let newstate : Option String :=
    if (lookupA f.states name).isSome then some name else none
  let f1 : FSMState := { f with curstate := newstate }
  if oldstate = newstate then f1
  else
    let f2 : FSMState :=
      match oldstate with
      | some o => updSlot f1 o Slot.leaveOp
      | none => f1
    let f3 : FSMState :=
      match newstate with
      | some n =>
          if paramlist ≠ [] then
            match lookupA f2.states n with
            | some s => { f2 with states := insertA f2.states n (s.set_params f2.arity paramlist) }
            | none => f2
          else f2
      | none => f2
    match newstate with
    | some n =>
        match lookupA f3.states n with
        | some s =>
            let r := Slot.enterOp s f3.nextId
            { f3 with states := insertA f3.states n r.1,
                      nextId := f3.nextId + 1,
                      log := f3.log ++ r.2 }
        | none => f3
    | none => f3

/-- Translation of `FSM::enter_state` (lines 290-294): forwards to
`_enter_state` with a null old-state argument. -/
def enter_state (f : FSMState) (name : String) (params : List Nat) : FSMState :=
  _enter_state f name params none

/-- Translation of `FSM::option_reuse` for a single identity (lines
244-250): `get<T>()` returns null for an unregistered identity and the code
dereferences it unconditionally (`state->reuse = true`), so the unregistered
case is a fault, modelled as `none`. -/
def option_reuse (f : FSMState) (name : String) : Option FSMState :=
  match lookupA f.states name with
  | none => none
  | some s => some { f with states := insertA f.states name { s with reuse := true } }

/-- Translation of `FSM::next_state` (lines 296-318): a no-op after
finalization, with no active state, or when the caller's type name differs
from the active slot's name; otherwise the destination is the front of the
deferred-target queue (popped) or, when the queue is empty, the active
slot's chain successor, and `_enter_state` runs with the active state as
the old state. -/
def next_state (f : FSMState) (mine : String) (params : List Nat) : FSMState :=
  if f.eof then f
  else
    match f.curstate with
    | none => f
    | some cur =>
        match lookupA f.states cur with
        | none => f
        | some s =>
            if s.name ≠ mine then f
            else
              match f.waitstates with
              | w :: ws => _enter_state { f with waitstates := ws } w params (some cur)
              | [] => _enter_state f s.nextstate params (some cur)

/-- Translation of `FSM::post_event` (lines 319-354).  `evtname` is
`typeid(E).name()`, `v` the payload value.  When the event routes to the
active slot's own name, or has no route at all, the payload is buffered on
the active slot and `onevt` runs on it; otherwise the active slot's
interruption code decides: nonzero buffers the payload on the target slot,
-1 additionally enqueues the target and returns, 0 returns with nothing
done, and 1 proceeds to `_enter_state` on the target. -/
def post_event (f : FSMState) (evtname : String) (v : Nat) (params : List Nat) : FSMState :=
  if f.eof then f
  else
    let exist : Bool := (lookupA f.events evtname).isSome
    if exist = false ∧ f.curstate = none then f
    else
      let staname : String := (lookupA f.events evtname).getD ""
      let curSlotName : Option String :=
        match f.curstate with
        | none => none
        | some cur =>
            match lookupA f.states cur with
            | some s => some s.name
            | none => none
      if curSlotName = some staname ∨ exist = false then
        match f.curstate with
        | none => f
        | some cur =>
            let f1 : FSMState :=
              match lookupA f.states cur with
              | some s => { f with states := insertA f.states cur (s.add_event ⟨evtname, v⟩) }
              | none => f
            updSlot f1 cur Slot.onevtOp
      else
        let code : Int :=
          match f.curstate with
          | none => 1
          | some cur =>
              match lookupA f.states cur with
              | some s => s.interrupt evtname
              | none => 1
        let f1 : FSMState :=
          if code ≠ 0 then
            match lookupA f.states staname with
            | some st => { f with states := insertA f.states staname (st.add_event ⟨evtname, v⟩) }
            | none => f
          else f
        if code = -1 then { f1 with waitstates := f1.waitstates ++ [staname] }
        else if code < 1 then f1
        else _enter_state f1 staname params f.curstate

/-! ### Concrete machines and slots used to instantiate the theorems -/

/-- A machine whose active state "A" has no chain successor and an empty
deferred-target queue. -/
def fsmC2x : FSMState :=
  { curstate := some "A", states := [("A", { name := "A", ta := some 0 })], nextId := 1 }

/-- A machine whose active state "A" has a deferred target "B" queued. -/
def fsmC2w : FSMState :=
  { curstate := some "A", waitstates := ["B"],
    states := [("A", { name := "A", ta := some 0 }), ("B", { name := "B" })], nextId := 1 }

/-- A machine whose active state "A" defers event "E", routed to state "C". -/
def fsmC3w : FSMState :=
  { curstate := some "A", events := [("E", "C")],
    states := [("A", { name := "A", ta := some 0, deferlist := ["E"] }), ("C", { name := "C" })],
    nextId := 1 }

/-- A machine with an active state "A" holding a buffered payload; the
identity "Z" is never registered. -/
def fsmC4x : FSMState :=
  { curstate := some "A",
    states := [("A", { name := "A", ta := some 0, evts := [("P", ⟨"P", 7⟩)] })], nextId := 1 }

/-- A machine whose active state "A" blacklists event "E", routed to "C". -/
def fsmC5w : FSMState :=
  { curstate := some "A", events := [("E", "C")],
    states := [("A", { name := "A", ta := some 0, blacklist := ["E"] }), ("C", { name := "C" })],
    nextId := 1 }

/-- A machine whose active state "A" handles its own event "E". -/
def fsmC6w : FSMState :=
  { curstate := some "A", events := [("E", "A")],
    states := [("A", { name := "A", ta := some 0, hasHandler := true })], nextId := 1 }

/-- A slot holding a mismatched entry: the key "U" stores a payload whose
dynamic type name is "V". -/
def slotC7 : Slot := { name := "S", evts := [("U", ⟨"V", 5⟩)] }

/-- A reusable slot with a live instance and a buffered payload. -/
def slotC8 : Slot := { name := "S", reuse := true, ta := some 3, evts := [("E", ⟨"E", 1⟩)] }

/-- A machine with active state "A", for exercising a stale advance call. -/
def fsmC9w : FSMState :=
  { curstate := some "A", states := [("A", { name := "A", ta := some 0 })], nextId := 1 }

/-- A machine with a deferred target "B" queued behind active state "A";
state "C" (with its own chain successor "A") will be force-entered. -/
def fsmC10w : FSMState :=
  { curstate := some "A", waitstates := ["B"],
    states := [("A", { name := "A", nextstate := "C", ta := some 0 }),
               ("B", { name := "B" }), ("C", { name := "C", nextstate := "A" })], nextId := 1 }

/-! ### Association-list lemmas -/

theorem lookupA_insertA_self {α : Type} (l : List (String × α)) (k : String) (v : α) :
    lookupA (insertA l k v) k = some v := by
  simp [insertA, lookupA]

theorem lookupA_eraseA_ne {α : Type} (l : List (String × α)) (k n : String) (h : n ≠ k) :
    lookupA (eraseA l k) n = lookupA l n := by
  induction l with
  | nil => rfl
  | cons hd tl ih =>
    obtain ⟨k', v⟩ := hd
    by_cases hk : k' = k
    · subst hk
      simp [eraseA, lookupA, ih, Ne.symm h]
    · simp only [eraseA, lookupA, hk, if_false, ite_false]
      by_cases hn : k' = n <;> simp [lookupA, hn, ih]

theorem lookupA_eraseA_self {α : Type} (l : List (String × α)) (k : String) :
    lookupA (eraseA l k) k = none := by
  induction l with
  | nil => rfl
  | cons hd tl ih =>
    obtain ⟨k', v⟩ := hd
    by_cases hk : k' = k <;> simp [eraseA, lookupA, hk, ih]

theorem lookupA_insertA_ne {α : Type} (l : List (String × α)) (k n : String) (v : α)
    (h : n ≠ k) : lookupA (insertA l k v) n = lookupA l n := by
  simp [insertA, lookupA, Ne.symm h, lookupA_eraseA_ne l k n h]

theorem eraseA_eraseA {α : Type} (l : List (String × α)) (k : String) :
    eraseA (eraseA l k) k = eraseA l k := by
  induction l with
  | nil => rfl
  | cons hd tl ih =>
    obtain ⟨k', v⟩ := hd
    by_cases hk : k' = k <;> simp [eraseA, hk, ih]

theorem eraseA_insertA {α : Type} (l : List (String × α)) (k : String) (v : α) :
    eraseA (insertA l k v) k = eraseA l k := by
  simp [insertA, eraseA, eraseA_eraseA]

/-! ### Frame lemmas for the transition coordinator -/

theorem _enter_state_waitstates_eq (f : FSMState) (name : String) (params : List Nat)
    (old : Option String) : (_enter_state f name params old).waitstates = f.waitstates := by
  simp only [_enter_state, updSlot]
  repeat' split <;> try rfl

theorem _enter_state_curstate_eq (f : FSMState) (name : String) (params : List Nat)
    (old : Option String) :
    (_enter_state f name params old).curstate =
      (if (lookupA f.states name).isSome then some name else none) := by
  simp only [_enter_state, updSlot]
  repeat' split <;> try rfl

theorem _enter_state_eof_eq (f : FSMState) (name : String) (params : List Nat)
    (old : Option String) : (_enter_state f name params old).eof = f.eof := by
  simp only [_enter_state, updSlot]
  repeat' split <;> try rfl

theorem leaveOp_snd (s : Slot) : (Slot.leaveOp s).2 = [Ev.leaveEv s.name] := by
  simp only [Slot.leaveOp]
  split <;> rfl

theorem _enter_state_some_old_unregistered (f : FSMState) (name o : String)
    (params : List Nat) (so : Slot)
    (hn : lookupA f.states name = none) (ho : lookupA f.states o = some so) :
    _enter_state f name params (some o) =
      { f with curstate := none,
               states := insertA f.states o (Slot.leaveOp so).1,
               log := f.log ++ [Ev.leaveEv so.name] } := by
  simp only [_enter_state, updSlot, hn, Option.isSome_none, Bool.false_eq_true, if_false,
    reduceCtorEq, ite_false, ho, leaveOp_snd]

theorem _enter_state_none_arg (f : FSMState) (name : String) (params : List Nat) (c : String)
    (h : f.curstate = some c) :
    _enter_state f name params none = _enter_state f name params (some c) := by
  simp only [_enter_state, h]

/-! ### C1 -/

/-- C1: for every active slot and incoming event identity, the decision of
`State::interrupt` follows exactly the spec's precedence: a non-empty
whitelist missing the identity rejects; else blacklist membership rejects;
else deferlist membership defers; else accept.  Overlaps are resolved by
this evaluation order, so an identity in both whitelist and blacklist is
rejected and one in both whitelist and deferlist is deferred. -/
theorem interrupt_follows_spec_precedence :
    ∀ (s : Slot) (e : String),
      verdictOfCode (s.interrupt e) = decideSpec s.whitelist s.blacklist s.deferlist e := by
  intro s e
  simp only [Slot.interrupt, decideSpec, verdictOfCode]
  split_ifs <;> simp_all

/-! ### C2 -/

/-- C2 counterexample: with active state "A", an empty deferred-target
queue and no chain successor, `next_state` called by "A" does not leave the
machine unchanged as the claim states: the active identity becomes none and
slot "A" is left (its instance destroyed). -/
theorem next_state_no_successor_not_noop :
    fsmC2x.curstate = some "A" ∧
    (next_state fsmC2x "A" []).curstate = none ∧
    lookupA (next_state fsmC2x "A" []).states "A" = some { name := "A" } ∧
    (next_state fsmC2x "A" []).log = [Ev.leaveEv "A"] := by
  decide

/-- C2 amended: on an advance whose caller matches the active identity, the
destination is the popped front of the deferred-target queue when the queue
is non-empty, else the active slot's chain successor; when the resolved
destination names a registered state it becomes active, and otherwise
(in particular the empty default successor) the machine transitions to no
state: the active identity becomes none and the active slot is left. -/
theorem next_state_destination_resolution (f : FSMState) (cur : String) (s : Slot)
    (params : List Nat)
    (h0 : f.eof = false) (h1 : f.curstate = some cur)
    (h2 : lookupA f.states cur = some s) (h3 : s.name = cur) :
    (∀ w ws, f.waitstates = w :: ws →
      (next_state f cur params).waitstates = ws ∧
      ((lookupA f.states w).isSome → (next_state f cur params).curstate = some w) ∧
      ((lookupA f.states w).isSome = false → (next_state f cur params).curstate = none))
    ∧ (f.waitstates = [] →
      ((lookupA f.states s.nextstate).isSome →
        (next_state f cur params).curstate = some s.nextstate) ∧
      ((lookupA f.states s.nextstate).isSome = false →
        (next_state f cur params).curstate = none ∧
        lookupA (next_state f cur params).states cur = some (Slot.leaveOp s).1)) := by
  constructor
  · intro w ws hw
    have hns : next_state f cur params = _enter_state { f with waitstates := ws } w params (some cur) := by
      simp [next_state, h0, h1, h2, h3, hw]
    refine ⟨?_, ?_, ?_⟩
    · rw [hns, _enter_state_waitstates_eq]
    · intro hsome
      rw [hns, _enter_state_curstate_eq]
      simp [hsome]
    · intro hnone
      rw [hns, _enter_state_curstate_eq]
      simp [hnone]
  · intro hw
    have hns : next_state f cur params = _enter_state f s.nextstate params (some cur) := by
      simp [next_state, h0, h1, h2, h3, hw]
    constructor
    · intro hsome
      rw [hns, _enter_state_curstate_eq]
      simp [hsome]
    · intro hnone
      have hnone' : lookupA f.states s.nextstate = none := by
        cases hcase : lookupA f.states s.nextstate with
        | none => rfl
        | some v => rw [hcase] at hnone; simp at hnone
      rw [hns, _enter_state_some_old_unregistered f s.nextstate cur params s hnone' h2]
      exact ⟨rfl, lookupA_insertA_self f.states cur (Slot.leaveOp s).1⟩

/-- C2 witness: on the concrete machine `fsmC2w`, advancing from "A" pops
the queued target "B", which becomes active. -/
theorem next_state_destination_resolution_witness :
    (next_state fsmC2w "A" []).waitstates = [] ∧
    (next_state fsmC2w "A" []).curstate = some "B" := by
  have h := next_state_destination_resolution fsmC2w "A" { name := "A", ta := some 0 } []
    rfl rfl (by decide) rfl
  have ha := h.1 "B" [] rfl
  exact ⟨ha.1, ha.2.1 (by decide)⟩

/-! ### C3 -/

/-- C3: posting an event whose verdict is Defer (a state is active, the
event's registered target differs from the active identity, and the active
slot's interruption code is -1) buffers the payload on the target state's
slot, appends the target identity at the back of the deferred-target
queue, and performs no transition: the active identity is unchanged, every
other slot is unchanged, and no enter/leave/dispatch runs (the log is
unchanged). -/
theorem post_event_defer_buffers_on_target (f : FSMState) (cur target evtname : String)
    (sc st : Slot) (v : Nat) (params : List Nat)
    (h0 : f.eof = false) (h1 : f.curstate = some cur)
    (h2 : lookupA f.states cur = some sc) (h3 : sc.name = cur)
    (h4 : lookupA f.events evtname = some target) (h5 : cur ≠ target)
    (h6 : sc.interrupt evtname = -1)
    (h7 : lookupA f.states target = some st) :
    (post_event f evtname v params).curstate = some cur ∧
    (post_event f evtname v params).waitstates = f.waitstates ++ [target] ∧
    (post_event f evtname v params).log = f.log ∧
    lookupA (post_event f evtname v params).states target = some (st.add_event ⟨evtname, v⟩) ∧
    (∀ n, n ≠ target → lookupA (post_event f evtname v params).states n = lookupA f.states n) := by
  have hpe : post_event f evtname v params =
      { f with states := insertA f.states target (st.add_event ⟨evtname, v⟩),
               waitstates := f.waitstates ++ [target] } := by
    simp [post_event, h0, h1, h2, h3, h4, h5, h6, h7]
  refine ⟨?_, ?_, ?_, ?_, ?_⟩
  · rw [hpe]; exact h1
  · rw [hpe]
  · rw [hpe]
  · rw [hpe]
    exact lookupA_insertA_self f.states target (st.add_event ⟨evtname, v⟩)
  · intro n hn
    rw [hpe]
    exact lookupA_insertA_ne f.states target n (st.add_event ⟨evtname, v⟩) hn

/-- C3 witness: on `fsmC3w`, posting "E" (routed to "C", deferred by the
active "A") buffers the payload on "C", queues "C", and changes nothing
else. -/
theorem post_event_defer_witness :
    (post_event fsmC3w "E" 9 []).curstate = some "A" ∧
    (post_event fsmC3w "E" 9 []).waitstates = ["C"] ∧
    (post_event fsmC3w "E" 9 []).log = [] ∧
    lookupA (post_event fsmC3w "E" 9 []).states "C" =
      some (Slot.add_event { name := "C" } ⟨"E", 9⟩) := by
  have h := post_event_defer_buffers_on_target fsmC3w "A" "C" "E"
    { name := "A", ta := some 0, deferlist := ["E"] } { name := "C" } 9 []
    rfl rfl (by decide) rfl (by decide) (by decide) (by decide) (by decide)
  exact ⟨h.1, h.2.1, h.2.2.1, h.2.2.2.1⟩

/-! ### C4 -/

/-- C4 counterexample: on `fsmC4x` (active state "A", identity "Z" never
registered) a forced enter of "Z" is not a no-op — the active identity
becomes none and "A" is left, its instance destroyed and its buffered
payload cleared — and `option_reuse` on "Z" dereferences a null pointer
(modelled as `none`) instead of silently doing nothing. -/
theorem unregistered_identity_not_noop :
    fsmC4x.curstate = some "A" ∧
    (enter_state fsmC4x "Z" []).curstate = none ∧
    lookupA (enter_state fsmC4x "Z" []).states "A" = some { name := "A" } ∧
    option_reuse fsmC4x "Z" = none := by
  decide

/-- C4 amended: a forced enter of an unregistered identity is a silent
no-op only when no state is active; when a state is active it clears the
active identity and leaves the active state.  `option_reuse` on an
unregistered identity dereferences a null pointer (a fault, not a no-op). -/
theorem unregistered_identity_operations (f : FSMState) (z : String) (params : List Nat)
    (hz : lookupA f.states z = none) :
    (enter_state f z params).curstate = none ∧
    (f.curstate = none → enter_state f z params = f) ∧
    (∀ c sc, f.curstate = some c → lookupA f.states c = some sc →
      lookupA (enter_state f z params).states c = some (Slot.leaveOp sc).1 ∧
      (enter_state f z params).log = f.log ++ [Ev.leaveEv sc.name]) ∧
    option_reuse f z = none := by
  refine ⟨?_, ?_, ?_, ?_⟩
  · rw [enter_state, _enter_state_curstate_eq]
    simp [hz]
  · intro h
    have he : enter_state f z params = { f with curstate := none } := by
      simp [enter_state, _enter_state, hz, h]
    rw [he, ← h]
  · intro c sc hc hsc
    rw [enter_state, _enter_state_none_arg f z params c hc,
      _enter_state_some_old_unregistered f z c params sc hz hsc]
    exact ⟨lookupA_insertA_self f.states c (Slot.leaveOp sc).1, rfl⟩
  · simp [option_reuse, hz]

/-- C4 witness: the amended behavior on the concrete machine `fsmC4x`. -/
theorem unregistered_identity_operations_witness :
    (enter_state fsmC4x "Z" []).curstate = none ∧
    lookupA (enter_state fsmC4x "Z" []).states "A" =
      some (Slot.leaveOp { name := "A", ta := some 0, evts := [("P", ⟨"P", 7⟩)] }).1 ∧
    option_reuse fsmC4x "Z" = none := by
  have h := unregistered_identity_operations fsmC4x "Z" [] (by decide)
  exact ⟨h.1,
    (h.2.2.1 "A" { name := "A", ta := some 0, evts := [("P", ⟨"P", 7⟩)] } rfl (by decide)).1,
    h.2.2.2⟩

/-! ### C5 -/

/-- C5: posting an event whose verdict is Reject (a state is active, the
event routes to a different state, and the active slot's interruption code
is 0) is dropped with no side effect anywhere: the machine is completely
unchanged — no buffering on any slot, no transition, no dispatch. -/
theorem post_event_reject_is_noop (f : FSMState) (cur target evtname : String)
    (sc : Slot) (v : Nat) (params : List Nat)
    (h0 : f.eof = false) (h1 : f.curstate = some cur)
    (h2 : lookupA f.states cur = some sc) (h3 : sc.name = cur)
    (h4 : lookupA f.events evtname = some target) (h5 : cur ≠ target)
    (h6 : sc.interrupt evtname = 0) :
    post_event f evtname v params = f := by
  simp [post_event, h0, h1, h2, h3, h4, h5, h6]

/-- C5 witness: on `fsmC5w` (active "A" blacklists "E", which routes to
"C") posting "E" leaves the machine literally unchanged. -/
theorem post_event_reject_witness :
    post_event fsmC5w "E" 9 [] = fsmC5w :=
  post_event_reject_is_noop fsmC5w "A" "C" "E"
    { name := "A", ta := some 0, blacklist := ["E"] } 9 []
    rfl rfl (by decide) rfl (by decide) (by decide) (by decide)

/-! ### C6 -/

/-- C6: posting, while a state is active, an event whose registered target
equals the active identity — or which has no registered target at all —
buffers the payload on the active slot and invokes its dispatch-event, and
nothing else happens: the active identity and the deferred-target queue are
unchanged, every other slot is unchanged, and the log grows only by the
dispatch (and handler) records, never by an enter or a leave. -/
theorem post_event_same_target_buffers_and_dispatches (f : FSMState) (cur evtname : String)
    (sc : Slot) (v : Nat) (params : List Nat)
    (h0 : f.eof = false) (h1 : f.curstate = some cur)
    (h2 : lookupA f.states cur = some sc) (h3 : sc.name = cur)
    (h4 : lookupA f.events evtname = some cur ∨ lookupA f.events evtname = none) :
    (post_event f evtname v params).curstate = some cur ∧
    (post_event f evtname v params).waitstates = f.waitstates ∧
    (∀ n, n ≠ cur → lookupA (post_event f evtname v params).states n = lookupA f.states n) ∧
    (sc.hasHandler = true → sc.ta ≠ none →
      lookupA (post_event f evtname v params).states cur = some (sc.add_event ⟨evtname, v⟩) ∧
      (post_event f evtname v params).log = f.log ++ [Ev.dispatchEv cur, Ev.handlerEv cur]) ∧
    (∃ l, (post_event f evtname v params).log = f.log ++ l ∧
      Ev.dispatchEv cur ∈ l ∧
      (∀ nm i, Ev.enterEv nm i ∉ l) ∧ (∀ nm, Ev.leaveEv nm ∉ l)) := by
  have hpe : post_event f evtname v params =
      updSlot { f with states := insertA f.states cur (Slot.add_event sc ⟨evtname, v⟩) }
        cur Slot.onevtOp := by
    rcases h4 with h4 | h4 <;> simp [post_event, h0, h1, h2, h3, h4]
  have hupd : post_event f evtname v params =
      { f with states := insertA (insertA f.states cur (Slot.add_event sc ⟨evtname, v⟩)) cur
                  (Slot.onevtOp (Slot.add_event sc ⟨evtname, v⟩)).1,
               log := f.log ++ (Slot.onevtOp (Slot.add_event sc ⟨evtname, v⟩)).2 } := by
    rw [hpe]
    simp [updSlot, lookupA_insertA_self]
  have hsname : (Slot.add_event sc ⟨evtname, v⟩).name = cur := by
    rw [show (Slot.add_event sc ⟨evtname, v⟩).name = sc.name from rfl, h3]
  refine ⟨?_, ?_, ?_, ?_, ?_⟩
  · rw [hupd]; exact h1
  · rw [hupd]
  · intro n hn
    rw [hupd]
    show lookupA (insertA (insertA f.states cur _) cur _) n = lookupA f.states n
    rw [lookupA_insertA_ne _ _ _ _ hn, lookupA_insertA_ne _ _ _ _ hn]
  · intro hh ht
    have honevt : Slot.onevtOp (Slot.add_event sc ⟨evtname, v⟩) =
        (Slot.add_event sc ⟨evtname, v⟩,
         [Ev.dispatchEv (Slot.add_event sc ⟨evtname, v⟩).name,
          Ev.handlerEv (Slot.add_event sc ⟨evtname, v⟩).name]) := by
      simp [Slot.onevtOp, Slot.add_event, hh, ht]
    constructor
    · rw [hupd, honevt]
      exact lookupA_insertA_self _ _ _
    · rw [hupd, honevt, hsname]
  · refine ⟨(Slot.onevtOp (Slot.add_event sc ⟨evtname, v⟩)).2, by rw [hupd], ?_, ?_, ?_⟩ <;>
      (simp only [Slot.onevtOp]; split_ifs <;> simp [hsname])

/-- C6 witness: on `fsmC6w` (event "E" routes to the active "A", which has
an instance and a handler), posting buffers the payload on "A" and runs
dispatch and the handler; nothing else changes. -/
theorem post_event_same_target_witness :
    (post_event fsmC6w "E" 4 []).curstate = some "A" ∧
    (post_event fsmC6w "E" 4 []).waitstates = [] ∧
    lookupA (post_event fsmC6w "E" 4 []).states "A" =
      some (Slot.add_event { name := "A", ta := some 0, hasHandler := true } ⟨"E", 4⟩) ∧
    (post_event fsmC6w "E" 4 []).log = [Ev.dispatchEv "A", Ev.handlerEv "A"] := by
  have h := post_event_same_target_buffers_and_dispatches fsmC6w "A" "E"
    { name := "A", ta := some 0, hasHandler := true } 4 []
    rfl rfl (by decide) rfl (Or.inl (by decide))
  have h4 := h.2.2.2.1 rfl (by decide)
  exact ⟨h.1, h.2.1, h4.1, h4.2⟩

/-! ### C7 -/

/-- C7: buffering a payload of type `t` on a slot and then taking it back
returns the payload exactly once — the entry is removed, so a second take
reports absent — and taking an entry whose stored dynamic type does not
match the requested key reports absent and leaves the slot (including the
mismatched entry) untouched. -/
theorem get_event_round_trip_and_mismatch (s : Slot) (t t' : String) (v : Nat) :
    (Slot.get_event (s.add_event ⟨t, v⟩) t).1 = some v ∧
    (Slot.get_event (s.add_event ⟨t, v⟩) t).2 = { s with evts := eraseA s.evts t } ∧
    Slot.get_event { s with evts := eraseA s.evts t } t =
      (none, { s with evts := eraseA s.evts t }) ∧
    (∀ p, lookupA s.evts t' = some p → p.tyName ≠ t' →
      Slot.get_event s t' = (none, s)) := by
  refine ⟨?_, ?_, ?_, ?_⟩
  · simp [Slot.get_event, Slot.add_event, lookupA_insertA_self]
  · simp [Slot.get_event, Slot.add_event, lookupA_insertA_self, eraseA_insertA]
  · simp [Slot.get_event, lookupA_eraseA_self]
  · intro p hp hne
    simp [Slot.get_event, hp, hne]

/-- C7 witness: a round trip through `slotC7` returns the buffered value,
and taking the mismatched entry (key "U", stored type "V") reports absent
and leaves the slot unchanged. -/
theorem get_event_round_trip_witness :
    (Slot.get_event (Slot.add_event slotC7 ⟨"E", 3⟩) "E").1 = some 3 ∧
    Slot.get_event slotC7 "U" = (none, slotC7) := by
  have h := get_event_round_trip_and_mismatch slotC7 "E" "U" 3
  exact ⟨h.1, h.2.2.2 ⟨"V", 5⟩ (by decide) (by decide)⟩

/-! ### C8 -/

/-- C8: `leave` clears all buffered payloads unconditionally, even with the
reuse flag set, and nulls the owned instance exactly when reuse is false;
consequently, with reuse set, leaving and re-entering yields the identical
instance (the same allocation id) with the pending payloads cleared. -/
theorem leave_clears_and_reuse_preserves_instance (s : Slot) (i fresh : Nat) :
    (Slot.leaveOp s).1.evts = [] ∧
    (Slot.leaveOp s).1.ta = (if s.reuse then s.ta else none) ∧
    (s.reuse = true → s.ta = some i →
      (Slot.enterOp (Slot.leaveOp s).1 fresh).1.ta = some i ∧
      (Slot.enterOp (Slot.leaveOp s).1 fresh).1.evts = []) := by
  refine ⟨?_, ?_, ?_⟩
  · by_cases hr : s.reuse <;> simp [Slot.leaveOp, hr]
  · by_cases hr : s.reuse <;> simp [Slot.leaveOp, hr]
  · intro hr hi
    simp [Slot.leaveOp, Slot.enterOp, hr, hi]

/-- C8 witness: on the concrete reusable slot `slotC8` (instance id 3, one
buffered payload), leave keeps the instance and clears the payloads, and
re-entering still holds instance 3 with no payloads. -/
theorem leave_reuse_witness :
    (Slot.leaveOp slotC8).1.evts = [] ∧
    (Slot.leaveOp slotC8).1.ta = some 3 ∧
    (Slot.enterOp (Slot.leaveOp slotC8).1 9).1.ta = some 3 ∧
    (Slot.enterOp (Slot.leaveOp slotC8).1 9).1.evts = [] := by
  have h := leave_clears_and_reuse_preserves_instance slotC8 3 9
  have h3 := h.2.2 rfl rfl
  exact ⟨h.1, h.2.1, h3.1, h3.2⟩

/-! ### C9 -/

/-- C9: an advance call whose claimed caller identity differs from the
currently active identity has no effect at all: the machine — active
identity, deferred-target queue, every slot's instance and buffered
payloads — is literally unchanged. -/
theorem stale_next_state_is_noop (f : FSMState) (cur mine : String) (sc : Slot)
    (params : List Nat)
    (h1 : f.curstate = some cur) (h2 : lookupA f.states cur = some sc)
    (h3 : sc.name = cur) (h4 : mine ≠ cur) :
    next_state f mine params = f := by
  by_cases h0 : f.eof
  · simp [next_state, h0]
  · simp [next_state, h0, h1, h2, h3, Ne.symm h4]

/-- C9 witness: on `fsmC9w` (active "A"), an advance claimed by "B" leaves
the machine literally unchanged. -/
theorem stale_next_state_witness :
    next_state fsmC9w "B" [] = fsmC9w :=
  stale_next_state_is_noop fsmC9w "A" "B" { name := "A", ta := some 0 } []
    rfl (by decide) rfl (by decide)

/-! ### C10 -/

/-- C10: the deferred-target queue is untouched by forced transitions:
`_enter_state` (and hence `enter_state` and every enter/leave it performs)
never changes `waitstates`, so a target deferred earlier still overrides
the chain successor at the next matching advance — it is popped and becomes
active even after forced transitions in between. -/
theorem enter_state_preserves_deferred_queue :
    (∀ (f : FSMState) (name : String) (params : List Nat) (old : Option String),
      (_enter_state f name params old).waitstates = f.waitstates) ∧
    (∀ (f : FSMState) (name : String) (params : List Nat),
      (enter_state f name params).waitstates = f.waitstates) ∧
    (∀ (g : FSMState) (cur w : String) (sc : Slot) (ws : List String) (params : List Nat),
      g.eof = false → g.curstate = some cur → lookupA g.states cur = some sc →
      sc.name = cur → g.waitstates = w :: ws → (lookupA g.states w).isSome →
      (next_state g cur params).curstate = some w ∧
      (next_state g cur params).waitstates = ws) := by
  refine ⟨fun f name params old => _enter_state_waitstates_eq f name params old,
    fun f name params => _enter_state_waitstates_eq f name params none, ?_⟩
  intro g cur w sc ws params h0 h1 h2 h3 hw hsome
  have hns : next_state g cur params =
      _enter_state { g with waitstates := ws } w params (some cur) := by
    simp [next_state, h0, h1, h2, h3, hw]
  constructor
  · rw [hns, _enter_state_curstate_eq]
    simp [hsome]
  · rw [hns, _enter_state_waitstates_eq]

/-- C10 witness: on `fsmC10w`, force-entering "C" keeps the deferred target
"B" queued, and the next advance from "C" pops "B" (overriding "C"'s chain
successor "A") and makes it active. -/
theorem enter_state_preserves_deferred_queue_witness :
    (enter_state fsmC10w "C" []).waitstates = ["B"] ∧
    (next_state (enter_state fsmC10w "C" []) "C" []).curstate = some "B" ∧
    (next_state (enter_state fsmC10w "C" []) "C" []).waitstates = [] := by
  have h := enter_state_preserves_deferred_queue
  have h3 := h.2.2 (enter_state fsmC10w "C" []) "C" "B"
    { name := "C", nextstate := "A", ta := some 1 } [] []
    (by decide) (by decide) (by decide) (by decide) (by decide) (by decide)
  exact ⟨h.2.1 fsmC10w "C" [], h3.1, h3.2⟩

end state_machine
